import Mathlib

/-!
Shallow embedding of `src/bjh.ts` (big-json-handler): a streaming JSON
token scanner over one in-memory buffer, with nesting-depth tracking, a
sticky error field, forward-only array/object iterators built on a
discard-to-depth helper, and kind-checked value accessors.

The buffer is modelled as a `List Char`; indices and the `end` bound are
`Nat` (the field `end` of the source is renamed `endPos`, `end` being a
Lean keyword); the nesting depth is an `Int` because the source mutates it
with a plain decrement that can drive it below zero.  Out-of-range reads
`data[i]` (JavaScript `undefined`) are modelled by the default character
`'\x00'`, which like `undefined` matches none of the scanner's character
tests.  The `throw` in the accessors is modelled with `Except`, and the
`NaN` results of `parseFloat` with `none`.
-/

/-- Token kinds, mirroring the `BjType` enum of the source. -/
inductive BjType where
  | ERROR
  | END
  | ARRAY
  | OBJECT
  | NUMBER
  | STRING
  | BOOL
  | NULL
deriving DecidableEq

/-- Reader (cursor) state, mirroring the `BjReader` interface of the source. -/
structure BjReader where
  data : List Char
  cur : Nat
  endPos : Nat
  depth : Int
  error : Option String
deriving DecidableEq

/-- Scanned token descriptor, mirroring the `BjValue` interface. -/
structure BjValue where
  type : BjType
  start : Nat
  endPos : Nat
  depth : Int
deriving DecidableEq

/-- Result of one array-iterator step, mirroring `BjIteratorResult`. -/
structure BjIteratorResult where
  done : Bool
  value : Option BjValue
deriving DecidableEq

/-- Result of one object-iterator step, mirroring `BjObjectIteratorResult`. -/
structure BjObjectIteratorResult where
  done : Bool
  key : Option BjValue
  value : Option BjValue
deriving DecidableEq

/-- Fresh reader over a buffer, mirroring `bjReader`. -/
def bjReader (data : List Char) : BjReader :=
  { data := data, cur := 0, endPos := data.length, depth := 0, error := none }

/-- Characters that may continue a number token, mirroring `isNumberCont`. -/
def isNumberCont (c : Char) : Bool :=
  (decide ('0' ≤ c) && decide (c ≤ '9')) ||
    c == 'e' || c == 'E' || c == '.' || c == '-' || c == '+'

/-- Bounded literal comparison at a buffer position, mirroring `isString`. -/
def isString (data : List Char) : Nat → Nat → List Char → Bool
  | _, _, [] => true
  | cur, endPos, e :: es =>
    decide (cur < endPos) && (data.getD cur '\x00' == e) &&
      isString data (cur + 1) endPos es

/-- Characters silently skipped by the scanning loop of `bjRead`
(whitespace plus the separators colon and comma). -/
def isWsChar (c : Char) : Bool :=
  c == ' ' || c == '\n' || c == '\r' || c == '\t' || c == ':' || c == ','

/-- Characters starting a number token in the `switch` of `bjRead`. -/
def isDigitStart (c : Char) : Bool :=
  c == '-' || (decide ('0' ≤ c) && decide (c ≤ '9'))

/-- Characters of `data` from index `cur` (inclusive) up to index `endPos`
(exclusive): the region the scanner's loops can still traverse. -/
def window (data : List Char) (endPos cur : Nat) : List Char :=
  (data.drop cur).take (endPos - cur)

/-- Index reached by the whitespace/separator-skipping loop of `bjRead`. -/
def skipPos (data : List Char) (endPos cur : Nat) : Nat :=
  cur + ((window data endPos cur).takeWhile isWsChar).length

/-- Length of the maximal run of number-continuation characters: the
number-scanning loop of `bjRead`. -/
def numRun (data : List Char) (endPos cur : Nat) : Nat :=
  ((window data endPos cur).takeWhile isNumberCont).length

/-- Relative index of the closing quote found by the string-scanning loop of
`bjRead`: a backslash makes the loop skip the following character
unconditionally before re-checking; `none` means the region is exhausted
before an unescaped closing quote. -/
def findClose : List Char → Option Nat
  | [] => none
  | c :: cs =>
    if c == '\"' then some 0
    else if c == '\\' then
      match cs with
      | [] => none
      | _ :: cs2 => (findClose cs2).map (fun j => j + 2)
    else (findClose cs).map (fun j => j + 1)

/-- Error message recorded for a stray closing bracket, mirroring the
conditional in the close-bracket case of `bjRead`. -/
def strayMsg (c : Char) : String :=
  if c == '\x7d' then "stray \x27\x7d\x27" else "stray \x27\x5d\x27"

/-- Token dispatch of `bjRead`: the body of the source's `switch` statement,
reached once the skipping loop has stopped on a non-skippable character at a
position strictly before `endPos`. -/
def bjDispatch (r : BjReader) : BjValue × BjReader :=
  let c := r.data.getD r.cur '\x00'
  if isDigitStart c then
    ({ type := BjType.NUMBER, start := r.cur,
       endPos := r.cur + numRun r.data r.endPos r.cur, depth := r.depth },
     { r with cur := r.cur + numRun r.data r.endPos r.cur })
  else if c = '\"' then
    match findClose (window r.data r.endPos (r.cur + 1)) with
    | some j =>
      ({ type := BjType.STRING, start := r.cur + 1, endPos := r.cur + 1 + j,
         depth := r.depth },
       { r with cur := r.cur + 1 + j + 1 })
    | none =>
      ({ type := BjType.ERROR, start := r.cur, endPos := r.endPos,
         depth := r.depth },
       { r with cur := r.endPos, error := some ("unclosed string") })
  else if c = '\x7b' ∨ c = '[' then
    ({ type := if c = '\x7b' then BjType.OBJECT else BjType.ARRAY,
       start := r.cur, endPos := r.cur + 1, depth := r.depth + 1 },
     { r with cur := r.cur + 1, depth := r.depth + 1 })
  else if c = '\x7d' ∨ c = ']' then
    if r.depth - 1 < 0 then
      ({ type := BjType.ERROR, start := r.cur, endPos := r.cur + 1,
         depth := r.depth },
       { r with depth := r.depth - 1, error := some (strayMsg c) })
    else
      ({ type := BjType.END, start := r.cur, endPos := r.cur + 1,
         depth := r.depth },
       { r with cur := r.cur + 1, depth := r.depth - 1 })
  else if c = 'n' ∨ c = 't' ∨ c = 'f' then
    if isString r.data r.cur r.endPos ("null".toList) then
      ({ type := if c = 'n' then BjType.NULL else BjType.BOOL,
         start := r.cur, endPos := r.cur + 4, depth := r.depth },
       { r with cur := r.cur + 4 })
    else if isString r.data r.cur r.endPos ("true".toList) then
      ({ type := if c = 'n' then BjType.NULL else BjType.BOOL,
         start := r.cur, endPos := r.cur + 4, depth := r.depth },
       { r with cur := r.cur + 4 })
    else if isString r.data r.cur r.endPos ("false".toList) then
      ({ type := if c = 'n' then BjType.NULL else BjType.BOOL,
         start := r.cur, endPos := r.cur + 5, depth := r.depth },
       { r with cur := r.cur + 5 })
    else
      ({ type := BjType.ERROR, start := r.cur, endPos := r.cur,
         depth := r.depth },
       { r with error := some ("unknown token") })
  else
    ({ type := BjType.ERROR, start := r.cur, endPos := r.cur,
       depth := r.depth },
     { r with error := some ("unknown token") })

/-- Scan the next token, mirroring `bjRead`: return the stored error if one
is set, otherwise run the skipping loop; hitting the end of the region sets
`unexpected eof`, and otherwise the token dispatch runs at the reached
position. -/
def bjRead (r : BjReader) : BjValue × BjReader :=
  if r.error.isSome then
    ({ type := BjType.ERROR, start := r.cur, endPos := r.cur,
       depth := r.depth }, r)
  else if r.endPos ≤ skipPos r.data r.endPos r.cur then
    ({ type := BjType.ERROR, start := skipPos r.data r.endPos r.cur,
       endPos := skipPos r.data r.endPos r.cur, depth := r.depth },
     { r with cur := skipPos r.data r.endPos r.cur,
              error := some ("unexpected eof") })
  else
    bjDispatch { r with cur := skipPos r.data r.endPos r.cur }

/-- Step-indexed form of the scanning loop of `bjRead`, one fuel unit per
iteration of the source's `while (true)` loop; `none` means the fuel ran
out before the loop returned. -/
def bjReadLoop : Nat → BjReader → Option (BjValue × BjReader)
  | 0, _ => none
  | fuel + 1, r =>
    if r.error.isSome then
      some ({ type := BjType.ERROR, start := r.cur, endPos := r.cur,
              depth := r.depth }, r)
    else if r.endPos ≤ r.cur then
      some ({ type := BjType.ERROR, start := r.cur, endPos := r.cur,
              depth := r.depth },
            { r with error := some ("unexpected eof") })
    else if isWsChar (r.data.getD r.cur '\x00') then
      bjReadLoop fuel { r with cur := r.cur + 1 }
    else
      some (bjDispatch r)

/-- Step-indexed form of the loop of `bjDiscardUntil`: scan and drop tokens
while the reader's depth differs from the target and the last token was not
an error. -/
def bjDiscardUntilAux : Nat → BjReader → Int → BjReader
  | 0, r, _ => r
  | fuel + 1, r, depth =>
    if r.depth = depth then r
    else
      let v := bjRead r
      if v.1.type = BjType.ERROR then v.2
      else bjDiscardUntilAux fuel v.2 depth

/-- Discard tokens until the reader's depth equals `depth` or an error
token is produced, mirroring `bjDiscardUntil`; the fuel
`r.endPos - r.cur + 1` is proved sufficient for the loop to reach its exit
condition. -/
def bjDiscardUntil (r : BjReader) (depth : Int) : BjReader :=
  bjDiscardUntilAux (r.endPos - r.cur + 1) r depth

/-- One array-iterator step, mirroring `bjIterArray`; the updated reader is
returned alongside the result. -/
def bjIterArray (r : BjReader) (arr : BjValue) : BjIteratorResult × BjReader :=
  let r1 := bjDiscardUntil r arr.depth
  let v := bjRead r1
  if v.1.type = BjType.ERROR ∨ v.1.type = BjType.END then
    ({ done := true, value := none }, v.2)
  else
    ({ done := false, value := some v.1 }, v.2)

/-- One object-iterator step, mirroring `bjIterObject`; the updated reader
is returned alongside the result. -/
def bjIterObject (r : BjReader) (obj : BjValue) :
    BjObjectIteratorResult × BjReader :=
  let r1 := bjDiscardUntil r obj.depth
  let k := bjRead r1
  if k.1.type = BjType.ERROR ∨ k.1.type = BjType.END then
    ({ done := true, key := none, value := none }, k.2)
  else
    let v := bjRead k.2
    if v.1.type = BjType.END then
      ({ done := true, key := none, value := none },
       { v.2 with error := some ("unexpected object end") })
    else if v.1.type = BjType.ERROR then
      ({ done := true, key := none, value := none }, v.2)
    else
      ({ done := false, key := some k.1, value := some v.1 }, v.2)

/-- JavaScript `String.prototype.substring` on the character list: both
arguments are clamped to the length and swapped when out of order. -/
def jsSubstring (data : List Char) (s e : Nat) : List Char :=
  (data.drop (min s e)).take (max s e - min s e)

/-- String accessor, mirroring `bjGetString`: the `throw` on a kind
mismatch is modelled as `Except.error`. -/
def bjGetString (r : BjReader) (val : BjValue) : Except String (List Char) :=
  if val.type ≠ BjType.STRING then Except.error ("Value is not a string")
  else Except.ok (jsSubstring r.data val.start val.endPos)

/-- Value of a digit run read most-significant first. -/
def digitsToNat (ds : List Char) : Nat :=
  ds.foldl (fun a c => a * 10 + (c.toNat - 48)) 0

/-- Model of the JavaScript `parseFloat` applied by `bjGetNumber` to a
number span: an optional sign, an integer part, an optional fraction and an
optional exponent are read as the longest valid prefix; `none` models the
`NaN` result produced when no digits are found.  Exact rational arithmetic
stands in for the source's float64. -/
def parseFloat (cs : List Char) : Option ℚ :=
  let sgn : ℚ × List Char :=
    match cs with
    | c :: rest =>
      if c = '-' then (-1, rest) else if c = '+' then (1, rest) else (1, cs)
    | [] => (1, cs)
  let ip := sgn.2.takeWhile Char.isDigit
  let cs2 := sgn.2.dropWhile Char.isDigit
  let fp : List Char × List Char :=
    match cs2 with
    | c :: rest =>
      if c = '.' then (rest.takeWhile Char.isDigit, rest.dropWhile Char.isDigit)
      else ([], cs2)
    | [] => ([], cs2)
  if ip.isEmpty && fp.1.isEmpty then none
  else
    let mant : ℚ :=
      sgn.1 * ((digitsToNat ip : ℚ) +
        (digitsToNat fp.1 : ℚ) / ((10 : ℚ) ^ fp.1.length))
    let ex : Int :=
      match fp.2 with
      | c :: rest =>
        if c = 'e' ∨ c = 'E' then
          match rest with
          | d :: r2 =>
            if d = '-' then -(digitsToNat (r2.takeWhile Char.isDigit) : Int)
            else if d = '+' then (digitsToNat (r2.takeWhile Char.isDigit) : Int)
            else (digitsToNat (rest.takeWhile Char.isDigit) : Int)
          | [] => 0
        else 0
      | [] => 0
    some (if 0 ≤ ex then mant * (10 : ℚ) ^ ex.toNat
          else mant / (10 : ℚ) ^ (-ex).toNat)

/-- Number accessor, mirroring `bjGetNumber`; `Except.ok none` models a
successful call whose `parseFloat` produced `NaN`. -/
def bjGetNumber (r : BjReader) (val : BjValue) : Except String (Option ℚ) :=
  if val.type ≠ BjType.NUMBER then Except.error ("Value is not a number")
  else Except.ok (parseFloat (jsSubstring r.data val.start val.endPos))

/-- Boolean accessor, mirroring `bjGetBool`. -/
def bjGetBool (r : BjReader) (val : BjValue) : Except String Bool :=
  if val.type ≠ BjType.BOOL then Except.error ("Value is not a boolean")
  else Except.ok (jsSubstring r.data val.start val.endPos == "true".toList)

/-- Null test, mirroring `bjIsNull`. -/
def bjIsNull (val : BjValue) : Bool :=
  val.type == BjType.NULL

/-! Positional facts about `List.getD`, `drop`, `take` and `takeWhile`,
used to reason about the scanner's loops through the buffer window. -/

theorem list_getD_drop {α : Type} (n : Nat) (l : List α) (k : Nat) (d : α) :
    (l.drop n).getD k d = l.getD (n + k) d := by
  induction n generalizing l with
  | zero => simp
  | succ m ih =>
    cases l with
    | nil => simp
    | cons a t =>
      have h2 : m + 1 + k = (m + k) + 1 := by omega
      simp only [List.drop_succ_cons, ih t, h2, List.getD_cons_succ]

theorem list_getD_take {α : Type} (n : Nat) (l : List α) (k : Nat) (d : α)
    (h : k < n) : (l.take n).getD k d = l.getD k d := by
  induction n generalizing l k with
  | zero => omega
  | succ m ih =>
    cases l with
    | nil => simp
    | cons a t =>
      cases k with
      | zero => rfl
      | succ k2 =>
        simp only [List.take_succ_cons, List.getD_cons_succ]
        exact ih t k2 (by omega)

theorem list_getD_default {α : Type} (l : List α) (n : Nat) (d : α)
    (h : l.length ≤ n) : l.getD n d = d := by
  induction l generalizing n with
  | nil => rfl
  | cons a t ih =>
    cases n with
    | zero => simp at h
    | succ m =>
      simp only [List.getD_cons_succ]
      exact ih m (by simpa using h)

theorem list_takeWhile_length_le {α : Type} (p : α → Bool) (l : List α) :
    (l.takeWhile p).length ≤ l.length := by
  induction l with
  | nil => simp
  | cons a t ih =>
    by_cases h : p a
    · simp [List.takeWhile_cons, h]
      omega
    · simp [List.takeWhile_cons, h]

theorem list_takeWhile_getD_true {α : Type} (p : α → Bool) (l : List α)
    (k : Nat) (d : α) (h : k < (l.takeWhile p).length) :
    p (l.getD k d) = true := by
  induction l generalizing k with
  | nil => simp at h
  | cons a t ih =>
    by_cases hp : p a
    · cases k with
      | zero => simpa using hp
      | succ k2 =>
        simp only [List.takeWhile_cons, hp, if_true, List.length_cons] at h
        simp only [List.getD_cons_succ]
        exact ih k2 (by omega)
    · simp [List.takeWhile_cons, hp] at h

theorem list_takeWhile_getD_stop {α : Type} (p : α → Bool) (l : List α)
    (d : α) (h : (l.takeWhile p).length < l.length) :
    p (l.getD (l.takeWhile p).length d) = false := by
  induction l with
  | nil => simp at h
  | cons a t ih =>
    by_cases hp : p a
    · simp only [List.takeWhile_cons, hp, if_true, List.length_cons] at h ⊢
      simpa using ih (by omega)
    · simp only [List.takeWhile_cons, hp, if_false, List.length_nil]
      simpa using hp

theorem list_drop_eq_getD_cons {α : Type} (l : List α) (c : Nat) (d : α)
    (h : c < l.length) : l.drop c = l.getD c d :: l.drop (c + 1) := by
  induction c generalizing l with
  | zero =>
    cases l with
    | nil => simp at h
    | cons a t => rfl
  | succ m ih =>
    cases l with
    | nil => simp at h
    | cons a t =>
      simp only [List.drop_succ_cons, List.getD_cons_succ]
      exact ih t (by simpa using h)

/-! Facts about the buffer window and the scanner's loop helpers. -/

theorem window_length (data : List Char) (endPos cur : Nat) :
    (window data endPos cur).length = min (endPos - cur) (data.length - cur) := by
  simp [window]

theorem window_getD (data : List Char) (endPos cur k : Nat) (d : Char)
    (h : k < endPos - cur) :
    (window data endPos cur).getD k d = data.getD (cur + k) d := by
  unfold window
  rw [list_getD_take _ _ _ _ h, list_getD_drop]

theorem window_empty (data : List Char) (endPos cur : Nat)
    (h : endPos ≤ cur) : window data endPos cur = [] := by
  unfold window
  have : endPos - cur = 0 := by omega
  simp [this]

theorem window_cons (data : List Char) (endPos cur : Nat)
    (h1 : cur < endPos) (h2 : cur < data.length) :
    window data endPos cur =
      data.getD cur '\x00' :: window data endPos (cur + 1) := by
  unfold window
  rw [list_drop_eq_getD_cons data cur '\x00' h2]
  have h3 : endPos - cur = (endPos - (cur + 1)) + 1 := by omega
  rw [h3, List.take_succ_cons]

theorem window_nil_of_len (data : List Char) (endPos cur : Nat)
    (h : data.length ≤ cur) : window data endPos cur = [] := by
  unfold window
  rw [List.drop_eq_nil_of_le h]
  simp

theorem isWsChar_null : isWsChar '\x00' = false := by decide

theorem isNumberCont_null : isNumberCont '\x00' = false := by decide

theorem isDigitStart_null : isDigitStart '\x00' = false := by decide

theorem isDigitStart_isNumberCont (c : Char) (h : isDigitStart c = true) :
    isNumberCont c = true := by
  unfold isDigitStart at h
  unfold isNumberCont
  rcases Bool.or_eq_true_iff.mp h with h1 | h2
  · have : c = '-' := by simpa using h1
    subst this
    decide
  · simp [h2]

theorem getD_lt_length (data : List Char) (cur : Nat)
    (h : data.getD cur '\x00' ≠ '\x00') : cur < data.length := by
  by_contra hc
  exact h (list_getD_default data cur '\x00' (by omega))

theorem skipPos_ge (data : List Char) (endPos cur : Nat) :
    cur ≤ skipPos data endPos cur :=
  Nat.le_add_right _ _

theorem skipPos_le (data : List Char) (endPos cur : Nat) (h : cur ≤ endPos) :
    skipPos data endPos cur ≤ endPos := by
  unfold skipPos
  have h1 := list_takeWhile_length_le isWsChar (window data endPos cur)
  have h2 := window_length data endPos cur
  omega

theorem skipPos_of_ge (data : List Char) (endPos cur : Nat)
    (h : endPos ≤ cur) : skipPos data endPos cur = cur := by
  unfold skipPos
  rw [window_empty data endPos cur h]
  rfl

theorem skipPos_not_ws (data : List Char) (endPos cur : Nat)
    (h : isWsChar (data.getD cur '\x00') = false) :
    skipPos data endPos cur = cur := by
  unfold skipPos
  rcases Nat.lt_or_ge cur endPos with h1 | h1
  · rcases Nat.lt_or_ge cur data.length with h2 | h2
    · rw [window_cons data endPos cur h1 h2, List.takeWhile_cons,
        if_neg (by rw [h]; exact Bool.false_ne_true)]
      rfl
    · rw [window_nil_of_len data endPos cur h2]
      rfl
  · rw [window_empty data endPos cur h1]
    rfl

theorem skipPos_ws (data : List Char) (endPos cur : Nat)
    (h1 : cur < endPos) (h : isWsChar (data.getD cur '\x00') = true) :
    skipPos data endPos cur = skipPos data endPos (cur + 1) := by
  have h2 : cur < data.length := by
    apply getD_lt_length
    intro hc
    rw [hc, isWsChar_null] at h
    exact Bool.false_ne_true h
  unfold skipPos
  rw [window_cons data endPos cur h1 h2, List.takeWhile_cons, if_pos h]
  rw [List.length_cons]
  omega

theorem numRun_le (data : List Char) (endPos cur : Nat) :
    numRun data endPos cur ≤ endPos - cur := by
  unfold numRun
  have h1 := list_takeWhile_length_le isNumberCont (window data endPos cur)
  have h2 := window_length data endPos cur
  omega

theorem numRun_pos (data : List Char) (endPos cur : Nat)
    (h1 : cur < endPos) (h : isNumberCont (data.getD cur '\x00') = true) :
    1 ≤ numRun data endPos cur := by
  have h2 : cur < data.length := by
    apply getD_lt_length
    intro hc
    rw [hc, isNumberCont_null] at h
    exact Bool.false_ne_true h
  unfold numRun
  rw [window_cons data endPos cur h1 h2, List.takeWhile_cons, if_pos h]
  rw [List.length_cons]
  omega

theorem numRun_all (data : List Char) (endPos cur k : Nat)
    (h : k < numRun data endPos cur) :
    isNumberCont (data.getD (cur + k) '\x00') = true := by
  unfold numRun at h
  have h2 := list_takeWhile_length_le isNumberCont (window data endPos cur)
  have h3 := window_length data endPos cur
  have h4 : k < endPos - cur := by omega
  have := list_takeWhile_getD_true isNumberCont (window data endPos cur) k '\x00' h
  rwa [window_getD data endPos cur k '\x00' h4] at this

theorem numRun_stop (data : List Char) (endPos cur : Nat)
    (h1 : cur + numRun data endPos cur < endPos)
    (h2 : cur + numRun data endPos cur < data.length) :
    isNumberCont (data.getD (cur + numRun data endPos cur) '\x00') = false := by
  have h3 := window_length data endPos cur
  have h4 : numRun data endPos cur < (window data endPos cur).length := by
    have h5 := numRun_le data endPos cur
    omega
  have h5 := list_takeWhile_getD_stop isNumberCont (window data endPos cur) '\x00' h4
  have h6 : (List.takeWhile isNumberCont (window data endPos cur)).length =
      numRun data endPos cur := rfl
  rw [h6] at h5
  rwa [window_getD data endPos cur (numRun data endPos cur) '\x00' (by omega)] at h5

theorem findClose_spec :
    ∀ (w : List Char) (j : Nat), findClose w = some j →
      j < w.length ∧ w.getD j '\x00' = '\"'
  | [], j, h => by simp [findClose] at h
  | c :: cs, j, h => by
    rw [findClose.eq_def] at h
    simp only [] at h
    by_cases hq : c == '\"'
    · rw [if_pos hq] at h
      have hj : j = 0 := by simpa using h.symm
      subst hj
      exact ⟨by simp, by simpa using hq⟩
    · rw [if_neg hq] at h
      by_cases hb : c == '\\'
      · rw [if_pos hb] at h
        cases cs with
        | nil => simp at h
        | cons c2 cs2 =>
          simp only [Option.map_eq_some'] at h
          obtain ⟨j2, hj2, hjj⟩ := h
          have ih := findClose_spec cs2 j2 hj2
          subst hjj
          constructor
          · simp only [List.length_cons]
            omega
          · show cs2.getD j2 '\x00' = '\"'
            exact ih.2
      · rw [if_neg hb] at h
        simp only [Option.map_eq_some'] at h
        obtain ⟨j2, hj2, hjj⟩ := h
        have ih := findClose_spec cs j2 hj2
        subst hjj
        constructor
        · simp only [List.length_cons]
          omega
        · show cs.getD j2 '\x00' = '\"'
          exact ih.2

theorem isString_bound (data : List Char) (endP : Nat) :
    ∀ (e : List Char) (cur : Nat), e ≠ [] →
      isString data cur endP e = true → cur + e.length ≤ endP
  | [], _, hne, _ => absurd rfl hne
  | x :: xs, cur, _, h => by
    simp only [isString, Bool.and_eq_true, decide_eq_true_eq] at h
    obtain ⟨⟨h1, _⟩, h3⟩ := h
    cases xs with
    | nil => simpa using h1
    | cons y ys =>
      have := isString_bound data endP (y :: ys) (cur + 1) (by simp) h3
      simp only [List.length_cons] at this ⊢
      omega

/-! Structural facts about the token dispatch and the scanner. -/

theorem bjDispatch_facts (r : BjReader) (hc : r.cur < r.endPos) :
    (bjDispatch r).2.data = r.data ∧
    (bjDispatch r).2.endPos = r.endPos ∧
    r.cur ≤ (bjDispatch r).2.cur ∧
    (bjDispatch r).2.cur ≤ r.endPos ∧
    ((bjDispatch r).1.type ≠ BjType.ERROR → r.cur < (bjDispatch r).2.cur) ∧
    ((bjDispatch r).1.type = BjType.ERROR → (bjDispatch r).2.error.isSome = true) ∧
    ((bjDispatch r).1.type ≠ BjType.ERROR → (bjDispatch r).2.error = r.error) := by
  dsimp only [bjDispatch]
  split
  · -- number token
    rename_i hd
    have h1 := numRun_le r.data r.endPos r.cur
    have h2 := numRun_pos r.data r.endPos r.cur hc (isDigitStart_isNumberCont _ hd)
    exact ⟨rfl, rfl, by dsimp only; omega, by dsimp only; omega, fun _ => by dsimp only; omega,
      fun h => by simp at h, fun _ => rfl⟩
  · split
    · -- string token: match on the closing-quote search
      split
      · -- closing quote found
        rename_i j heq
        have h1 := (findClose_spec _ _ heq).1
        have h2 := window_length r.data r.endPos (r.cur + 1)
        exact ⟨rfl, rfl, by dsimp only; omega, by dsimp only; omega, fun _ => by dsimp only; omega,
          fun h => by simp at h, fun _ => rfl⟩
      · -- unclosed string
        exact ⟨rfl, rfl, by dsimp only; omega, by simp, fun h => absurd rfl h,
          fun _ => by simp, fun h => absurd rfl h⟩
    · split
      · -- container open
        exact ⟨rfl, rfl, by simp, by dsimp only; omega, fun _ => by simp, 
          fun h => by simp at h; split at h <;> simp at h, fun _ => rfl⟩
      · split
        · split
          · -- stray container close
            exact ⟨rfl, rfl, by simp, by dsimp only; omega, fun h => absurd rfl h,
              fun _ => by simp, fun h => absurd rfl h⟩
          · -- container close at positive depth
            exact ⟨rfl, rfl, by simp, by dsimp only; omega, fun _ => by simp,
              fun h => by simp at h, fun _ => rfl⟩
        · split
          · split
            · -- literal null
              rename_i hnull
              have h1 := isString_bound r.data r.endPos ("null".toList) r.cur
                (by simp) hnull
              have hl : ("null".toList).length = 4 := rfl
              rw [hl] at h1
              exact ⟨rfl, rfl, by simp, by dsimp only; omega, fun _ => by simp,
                fun h => by simp at h; split at h <;> simp at h, fun _ => rfl⟩
            · split
              · -- literal true
                rename_i htrue
                have h1 := isString_bound r.data r.endPos ("true".toList) r.cur
                  (by simp) htrue
                have hl : ("true".toList).length = 4 := rfl
                rw [hl] at h1
                exact ⟨rfl, rfl, by simp, by dsimp only; omega, fun _ => by simp,
                  fun h => by simp at h; split at h <;> simp at h, fun _ => rfl⟩
              · split
                · -- literal false
                  rename_i hfalse
                  have h1 := isString_bound r.data r.endPos ("false".toList) r.cur
                    (by simp) hfalse
                  have hl : ("false".toList).length = 5 := rfl
                  rw [hl] at h1
                  exact ⟨rfl, rfl, by simp, by dsimp only; omega, fun _ => by simp,
                    fun h => by simp at h; split at h <;> simp at h, fun _ => rfl⟩
                · -- unknown literal
                  exact ⟨rfl, rfl, by simp, by dsimp only; omega, fun h => absurd rfl h,
                    fun _ => by simp, fun h => absurd rfl h⟩
          · -- unknown token
            exact ⟨rfl, rfl, by simp, by dsimp only; omega, fun h => absurd rfl h,
              fun _ => by simp, fun h => absurd rfl h⟩

theorem bjRead_of_error (r : BjReader) (h : r.error.isSome = true) :
    bjRead r =
      ({ type := BjType.ERROR, start := r.cur, endPos := r.cur,
         depth := r.depth }, r) := by
  unfold bjRead
  rw [if_pos h]

theorem bjRead_facts (r : BjReader) :
    (bjRead r).2.data = r.data ∧
    (bjRead r).2.endPos = r.endPos ∧
    r.cur ≤ (bjRead r).2.cur ∧
    (r.cur ≤ r.endPos → (bjRead r).2.cur ≤ r.endPos) ∧
    ((bjRead r).1.type ≠ BjType.ERROR → r.cur < (bjRead r).2.cur) ∧
    ((bjRead r).1.type = BjType.ERROR → (bjRead r).2.error.isSome = true) ∧
    ((bjRead r).1.type ≠ BjType.ERROR →
      (bjRead r).2.error = none ∧ r.error = none) := by
  unfold bjRead
  split
  · rename_i h
    exact ⟨rfl, rfl, le_refl _, fun h2 => h2, fun hne => absurd rfl hne,
      fun _ => h, fun hne => absurd rfl hne⟩
  · split
    · rename_i hno heof
      have hs := skipPos_ge r.data r.endPos r.cur
      exact ⟨rfl, rfl, by dsimp only; omega,
        fun h2 => by dsimp only; exact skipPos_le _ _ _ h2,
        fun hne => absurd rfl hne, fun _ => by simp, fun hne => absurd rfl hne⟩
    · rename_i hno hlt
      have hlt2 : ({ r with cur := skipPos r.data r.endPos r.cur } : BjReader).cur <
          ({ r with cur := skipPos r.data r.endPos r.cur } : BjReader).endPos := by
        dsimp only
        omega
      obtain ⟨d1, d2, d3, d4, d5, d6, d7⟩ :=
        bjDispatch_facts { r with cur := skipPos r.data r.endPos r.cur } hlt2
      have hs := skipPos_ge r.data r.endPos r.cur
      have hnone : r.error = none := by simpa using hno
      refine ⟨d1, d2, ?_, fun _ => ?_, fun hne => ?_, d6, fun hne => ?_⟩
      · exact le_trans hs d3
      · exact d4
      · exact lt_of_le_of_lt hs (d5 hne)
      · exact ⟨by rw [d7 hne]; exact hnone, hnone⟩

theorem bjRead_eof (r : BjReader) (h : r.endPos ≤ r.cur) :
    (bjRead r).1.type = BjType.ERROR := by
  unfold bjRead
  split
  · rfl
  · rw [if_pos]
    have := skipPos_ge r.data r.endPos r.cur
    omega

theorem bjRead_skip_ws (r : BjReader) (he : r.error = none)
    (h1 : r.cur < r.endPos) (hw : isWsChar (r.data.getD r.cur '\x00') = true) :
    bjRead r = bjRead { r with cur := r.cur + 1 } := by
  have hs := skipPos_ws r.data r.endPos r.cur h1 hw
  unfold bjRead
  simp only [he, Option.isSome_none, Bool.false_eq_true, if_false]
  rw [hs]

theorem bjRead_not_ws (r : BjReader) (he : r.error = none)
    (h1 : r.cur < r.endPos) (hw : isWsChar (r.data.getD r.cur '\x00') = false) :
    bjRead r = bjDispatch r := by
  have hs := skipPos_not_ws r.data r.endPos r.cur hw
  unfold bjRead
  simp only [he, Option.isSome_none, Bool.false_eq_true, if_false]
  rw [hs]
  rw [if_neg (by omega)]
  rw [← he]

theorem bjReadLoop_eq (fuel : Nat) :
    ∀ r : BjReader, r.endPos - r.cur < fuel →
      bjReadLoop fuel r = some (bjRead r) := by
  induction fuel with
  | zero => intro r h; omega
  | succ f ih =>
    intro r h
    simp only [bjReadLoop]
    by_cases he : r.error.isSome
    · rw [if_pos he, bjRead_of_error r he]
    · rw [if_neg he]
      have hnone : r.error = none := by simpa using he
      by_cases heof : r.endPos ≤ r.cur
      · rw [if_pos heof]
        have hs := skipPos_of_ge r.data r.endPos r.cur heof
        unfold bjRead
        simp only [hnone, Option.isSome_none, Bool.false_eq_true, if_false, hs,
          if_pos heof]
      · rw [if_neg heof]
        by_cases hw : isWsChar (r.data.getD r.cur '\x00')
        · rw [if_pos hw]
          rw [bjRead_skip_ws r hnone (by omega) hw]
          exact ih { r with cur := r.cur + 1 } (by dsimp only; omega)
        · rw [if_neg hw]
          rw [bjRead_not_ws r hnone (by omega) (by simpa using hw)]

theorem discardAux_frame (fuel : Nat) :
    ∀ (r : BjReader) (d : Int),
      (bjDiscardUntilAux fuel r d).data = r.data ∧
      (bjDiscardUntilAux fuel r d).endPos = r.endPos ∧
      r.cur ≤ (bjDiscardUntilAux fuel r d).cur ∧
      (r.cur ≤ r.endPos → (bjDiscardUntilAux fuel r d).cur ≤ r.endPos) := by
  induction fuel with
  | zero => exact fun r d => ⟨rfl, rfl, le_refl _, fun h => h⟩
  | succ f ih =>
    intro r d
    simp only [bjDiscardUntilAux]
    by_cases hd : r.depth = d
    · rw [if_pos hd]
      exact ⟨rfl, rfl, le_refl _, fun h => h⟩
    · rw [if_neg hd]
      obtain ⟨f1, f2, f3, f4, _, _, _⟩ := bjRead_facts r
      by_cases ht : (bjRead r).1.type = BjType.ERROR
      · rw [if_pos ht]
        exact ⟨f1, f2, f3, f4⟩
      · rw [if_neg ht]
        obtain ⟨g1, g2, g3, g4⟩ := ih (bjRead r).2 d
        refine ⟨by rw [g1, f1], by rw [g2, f2], le_trans f3 g3, fun h => ?_⟩
        have h5 := f4 h
        have h6 := g4 (by rw [f2]; exact h5)
        rw [f2] at h6
        exact h6

theorem discardAux_terminal (fuel : Nat) :
    ∀ (r : BjReader) (d : Int), r.endPos - r.cur < fuel →
      (bjDiscardUntilAux fuel r d).depth = d ∨
      (bjDiscardUntilAux fuel r d).error.isSome = true := by
  induction fuel with
  | zero => intro r d h; omega
  | succ f ih =>
    intro r d h
    simp only [bjDiscardUntilAux]
    by_cases hd : r.depth = d
    · rw [if_pos hd]
      exact Or.inl hd
    · rw [if_neg hd]
      obtain ⟨f1, f2, f3, f4, f5, f6, f7⟩ := bjRead_facts r
      by_cases ht : (bjRead r).1.type = BjType.ERROR
      · rw [if_pos ht]
        exact Or.inr (f6 ht)
      · rw [if_neg ht]
        have hlt : r.cur < r.endPos := by
          by_contra hc
          exact ht (bjRead_eof r (by omega))
        have h5 := f5 ht
        have h6 := f4 (by omega)
        apply ih (bjRead r).2 d
        rw [f2]
        omega

theorem discardAux_stable_aux (n : Nat) :
    ∀ (fuel : Nat) (r : BjReader) (d : Int), fuel ≤ n →
      r.endPos - r.cur < fuel →
      bjDiscardUntilAux fuel r d = bjDiscardUntil r d := by
  induction n with
  | zero => intro fuel r d hle h; omega
  | succ m ih =>
    intro fuel r d hle h
    match fuel, h with
    | f + 1, h =>
      unfold bjDiscardUntil
      simp only [bjDiscardUntilAux]
      by_cases hd : r.depth = d
      · rw [if_pos hd, if_pos hd]
      · rw [if_neg hd, if_neg hd]
        obtain ⟨f1, f2, f3, f4, f5, f6, f7⟩ := bjRead_facts r
        by_cases ht : (bjRead r).1.type = BjType.ERROR
        · rw [if_pos ht, if_pos ht]
        · rw [if_neg ht, if_neg ht]
          have hlt : r.cur < r.endPos := by
            by_contra hc
            exact ht (bjRead_eof r (by omega))
          have h5 := f5 ht
          have h6 := f4 (by omega)
          have hb : (bjRead r).2.endPos - (bjRead r).2.cur < r.endPos - r.cur := by
            rw [f2]
            omega
          rw [ih f (bjRead r).2 d (by omega) (by omega)]
          rw [ih (r.endPos - r.cur) (bjRead r).2 d (by omega) (by omega)]

theorem discardAux_stable (fuel : Nat) (r : BjReader) (d : Int)
    (h : r.endPos - r.cur < fuel) :
    bjDiscardUntilAux fuel r d = bjDiscardUntil r d :=
  discardAux_stable_aux fuel fuel r d (le_refl fuel) h

theorem bjDiscardUntil_terminal (r : BjReader) (d : Int) :
    (bjDiscardUntil r d).depth = d ∨
    (bjDiscardUntil r d).error.isSome = true :=
  discardAux_terminal (r.endPos - r.cur + 1) r d (by omega)

theorem bjDiscardUntil_frame (r : BjReader) (d : Int) :
    (bjDiscardUntil r d).data = r.data ∧
    (bjDiscardUntil r d).endPos = r.endPos ∧
    r.cur ≤ (bjDiscardUntil r d).cur ∧
    (r.cur ≤ r.endPos → (bjDiscardUntil r d).cur ≤ r.endPos) :=
  discardAux_frame (r.endPos - r.cur + 1) r d

/-- C2: once the reader's error field is set, `bjRead` returns the Error
Value built from the current position and depth and leaves the reader
completely unchanged (cursor, depth and stored message included), so every
subsequent call returns that same Error Value and consumes no input. -/
theorem bjRead_sticky_error (r : BjReader) (e : String) (h : r.error = some e) :
    bjRead r =
      ({ type := BjType.ERROR, start := r.cur, endPos := r.cur,
         depth := r.depth }, r) ∧
    bjRead (bjRead r).2 = bjRead r := by
  have h1 := bjRead_of_error r (by rw [h]; rfl)
  refine ⟨h1, ?_⟩
  rw [h1]
  exact h1

/-- Witness for C2 at a concrete errored reader. -/
theorem bjRead_sticky_error_witness :
    bjRead { data := [], cur := 0, endPos := 0, depth := 0,
             error := some ("boom") } =
      ({ type := BjType.ERROR, start := 0, endPos := 0, depth := 0 },
       { data := [], cur := 0, endPos := 0, depth := 0,
         error := some ("boom") }) :=
  (bjRead_sticky_error _ "boom" rfl).1

/-- C10: the scanning loop of `bjRead`, run one iteration per fuel unit,
returns within any fuel bound exceeding the remaining buffer length, and the
discard loop of `bjDiscardUntil` is insensitive to any sufficient fuel and
stops having reached the target depth or an error. -/
theorem scanner_terminates :
    (∀ (r : BjReader) (fuel : Nat), r.endPos - r.cur < fuel →
      bjReadLoop fuel r = some (bjRead r)) ∧
    (∀ (r : BjReader) (d : Int) (fuel : Nat), r.endPos - r.cur < fuel →
      bjDiscardUntilAux fuel r d = bjDiscardUntil r d ∧
      ((bjDiscardUntil r d).depth = d ∨
        (bjDiscardUntil r d).error.isSome = true)) :=
  ⟨fun r fuel h => bjReadLoop_eq fuel r h,
   fun r d fuel h => ⟨discardAux_stable fuel r d h, bjDiscardUntil_terminal r d⟩⟩

/-- Witness for C10 at a concrete reader and fuel. -/
theorem scanner_terminates_witness :
    bjReadLoop 2 (bjReader ("1".toList)) =
      some (bjRead (bjReader ("1".toList))) ∧
    bjDiscardUntilAux 2 (bjReader ("1".toList)) 0 =
      bjDiscardUntil (bjReader ("1".toList)) 0 :=
  ⟨scanner_terminates.1 (bjReader ("1".toList)) 2 (by decide),
   (scanner_terminates.2 (bjReader ("1".toList)) 0 2 (by decide)).1⟩

/-- C9: a scan never moves the cursor backwards and, when the cursor starts
within bounds, never moves it past the end of the buffer; each array or
object iterator step inherits both properties. -/
theorem cursor_monotone (r : BjReader) (v : BjValue) :
    (r.cur ≤ (bjRead r).2.cur ∧
      (r.cur ≤ r.endPos → (bjRead r).2.cur ≤ r.endPos)) ∧
    (r.cur ≤ (bjIterArray r v).2.cur ∧
      (r.cur ≤ r.endPos → (bjIterArray r v).2.cur ≤ r.endPos)) ∧
    (r.cur ≤ (bjIterObject r v).2.cur ∧
      (r.cur ≤ r.endPos → (bjIterObject r v).2.cur ≤ r.endPos)) := by
  obtain ⟨_, _, r3, r4, _, _, _⟩ := bjRead_facts r
  obtain ⟨a1, a2, a3, a4⟩ := bjDiscardUntil_frame r v.depth
  obtain ⟨b1, b2, b3, b4, _, _, _⟩ := bjRead_facts (bjDiscardUntil r v.depth)
  obtain ⟨c1, c2, c3, c4, _, _, _⟩ :=
    bjRead_facts (bjRead (bjDiscardUntil r v.depth)).2
  have mono1 : r.cur ≤ (bjRead (bjDiscardUntil r v.depth)).2.cur :=
    le_trans a3 b3
  have bnd1 : r.cur ≤ r.endPos →
      (bjRead (bjDiscardUntil r v.depth)).2.cur ≤ r.endPos := by
    intro h
    have h2 := b4 (by rw [a2]; exact a4 h)
    rw [a2] at h2
    exact h2
  have mono2 :
      r.cur ≤ (bjRead (bjRead (bjDiscardUntil r v.depth)).2).2.cur :=
    le_trans mono1 c3
  have bnd2 : r.cur ≤ r.endPos →
      (bjRead (bjRead (bjDiscardUntil r v.depth)).2).2.cur ≤ r.endPos := by
    intro h
    have h2 := c4 (by rw [b2, a2]; exact bnd1 h)
    rw [b2, a2] at h2
    exact h2
  refine ⟨⟨r3, r4⟩, ?_, ?_⟩
  · unfold bjIterArray
    dsimp only
    split <;> exact ⟨mono1, bnd1⟩
  · unfold bjIterObject
    dsimp only
    split
    · exact ⟨mono1, bnd1⟩
    · split
      · exact ⟨mono2, bnd2⟩
      · split
        · exact ⟨mono2, bnd2⟩
        · exact ⟨mono2, bnd2⟩

/-- Witness for C9 at a concrete reader and container value. -/
theorem cursor_monotone_witness :
    (bjRead (bjReader ("1".toList))).2.cur ≤ (bjReader ("1".toList)).endPos :=
  (cursor_monotone (bjReader ("1".toList)) ⟨BjType.ARRAY, 0, 1, 1⟩).1.2
    (by decide)

/-- C1 (amended): whenever `bjRead` in a non-error state encounters a `\x7d`
or `]` at the cursor with the depth decrement about to underflow (so in
particular at depth 0), it records the stray-close error whose message
identifies the offending bracket character, returns an Error Value whose
depth field is the pre-decrement depth (`0` at depth 0) and whose span is
the bracket itself, and leaves the reader's cursor un-advanced and its depth
decremented to `r.depth - 1` (that is `-1` at depth 0, not `0` as originally
claimed); moreover the depth changes only with the scanned token:
container-open tokens increment it by one, End tokens decrement it by one
and only arise from depth at least one, scalar tokens leave it unchanged, an
Error result either leaves it unchanged or is the stray-close decrement, and
from nonnegative depth it never drops below `-1`. -/
theorem depth_transition (r : BjReader) (he : r.error = none) :
    (r.cur < r.endPos →
      (r.data.getD r.cur '\x00' = '\x7d' ∨ r.data.getD r.cur '\x00' = ']') →
      r.depth - 1 < 0 →
      bjRead r =
        ({ type := BjType.ERROR, start := r.cur, endPos := r.cur + 1,
           depth := r.depth },
         { r with depth := r.depth - 1,
                  error := some (strayMsg (r.data.getD r.cur '\x00')) })) ∧
    ((bjRead r).1.type = BjType.OBJECT ∨ (bjRead r).1.type = BjType.ARRAY →
      (bjRead r).2.depth = r.depth + 1) ∧
    ((bjRead r).1.type = BjType.END →
      (bjRead r).2.depth = r.depth - 1 ∧ 1 ≤ r.depth) ∧
    ((bjRead r).1.type = BjType.NUMBER ∨ (bjRead r).1.type = BjType.STRING ∨
      (bjRead r).1.type = BjType.BOOL ∨ (bjRead r).1.type = BjType.NULL →
      (bjRead r).2.depth = r.depth) ∧
    ((bjRead r).1.type = BjType.ERROR →
      (bjRead r).2.depth = r.depth ∨
      ((bjRead r).2.depth = r.depth - 1 ∧ r.depth - 1 < 0 ∧
        (bjRead r).2.error =
          some (strayMsg (r.data.getD (bjRead r).2.cur '\x00')))) ∧
    (0 ≤ r.depth → -1 ≤ (bjRead r).2.depth) := by
  constructor
  · intro hc hb hd
    have hw : isWsChar (r.data.getD r.cur '\x00') = false := by
      rcases hb with hb | hb <;> rw [hb] <;> decide
    rw [bjRead_not_ws r he hc hw]
    dsimp only [bjDispatch]
    rcases hb with hb | hb <;>
      rw [hb, if_neg (by decide), if_neg (by decide), if_neg (by decide),
        if_pos (by decide), if_pos hd]
  unfold bjRead
  have hno : ¬ r.error.isSome = true := by simp [he]
  rw [if_neg hno]
  split
  · -- end of input
    exact ⟨fun h => by rcases h with h | h <;> simp at h,
      fun h => by simp at h,
      fun h => by rcases h with h | h | h | h <;> simp at h,
      fun _ => Or.inl rfl,
      fun h => by dsimp only; omega⟩
  · dsimp only [bjDispatch]
    split
    · -- number token
      exact ⟨fun h => by rcases h with h | h <;> simp at h,
        fun h => by simp at h,
        fun _ => rfl,
        fun h => by simp at h,
        fun h => by dsimp only; omega⟩
    · split
      · split
        · -- string token
          exact ⟨fun h => by rcases h with h | h <;> simp at h,
            fun h => by simp at h,
            fun _ => rfl,
            fun h => by simp at h,
            fun h => by dsimp only; omega⟩
        · -- unclosed string
          exact ⟨fun h => by rcases h with h | h <;> simp at h,
            fun h => by simp at h,
            fun h => by rcases h with h | h | h | h <;> simp at h,
            fun _ => Or.inl rfl,
            fun h => by dsimp only; omega⟩
      · split
        · -- container open
          exact ⟨fun _ => rfl,
            fun h => by simp at h; split at h <;> simp at h,
            fun h => by
              rcases h with h | h | h | h <;> simp at h <;>
                split at h <;> simp at h,
            fun h => by simp at h; split at h <;> simp at h,
            fun h => by dsimp only; omega⟩
        · split
          · split
            · -- stray container close
              rename_i hneg
              refine ⟨fun h => by rcases h with h | h <;> simp at h,
                fun h => by simp at h,
                fun h => by rcases h with h | h | h | h <;> simp at h,
                fun _ => Or.inr ⟨rfl, by omega, rfl⟩,
                fun h => by dsimp only; omega⟩
            · -- container close at positive depth
              rename_i hneg
              refine ⟨fun h => by rcases h with h | h <;> simp at h,
                fun _ => ⟨rfl, by omega⟩,
                fun h => by rcases h with h | h | h | h <;> simp at h,
                fun h => by simp at h,
                fun h => by dsimp only; omega⟩
          · split
            · split
              · -- literal null
                exact ⟨fun h => by
                    rcases h with h | h <;> simp at h <;>
                      split at h <;> simp at h,
                  fun h => by simp at h; split at h <;> simp at h,
                  fun _ => rfl,
                  fun h => by simp at h; split at h <;> simp at h,
                  fun h => by dsimp only; omega⟩
              · split
                · -- literal true
                  exact ⟨fun h => by
                      rcases h with h | h <;> simp at h <;>
                        split at h <;> simp at h,
                    fun h => by simp at h; split at h <;> simp at h,
                    fun _ => rfl,
                    fun h => by simp at h; split at h <;> simp at h,
                    fun h => by dsimp only; omega⟩
                · split
                  · -- literal false
                    exact ⟨fun h => by
                        rcases h with h | h <;> simp at h <;>
                          split at h <;> simp at h,
                      fun h => by simp at h; split at h <;> simp at h,
                      fun _ => rfl,
                      fun h => by simp at h; split at h <;> simp at h,
                      fun h => by dsimp only; omega⟩
                  · -- unknown literal
                    exact ⟨fun h => by rcases h with h | h <;> simp at h,
                      fun h => by simp at h,
                      fun h => by rcases h with h | h | h | h <;> simp at h,
                      fun _ => Or.inl rfl,
                      fun h => by dsimp only; omega⟩
            · -- unknown token
              exact ⟨fun h => by rcases h with h | h <;> simp at h,
                fun h => by simp at h,
                fun h => by rcases h with h | h | h | h <;> simp at h,
                fun _ => Or.inl rfl,
                fun h => by dsimp only; omega⟩

/-- Witness for C1: an open bracket increments the depth, and a stray `]`
at depth 0 yields the full stray-close equation, with the error message
naming `]`, the Value depth field 0 and the reader depth `-1`. -/
theorem depth_transition_witness :
    (bjRead (bjReader ("[".toList))).2.depth =
      (bjReader ("[".toList)).depth + 1 ∧
    bjRead (bjReader ("]".toList)) =
      ({ type := BjType.ERROR, start := 0, endPos := 1, depth := 0 },
       { data := "]".toList, cur := 0, endPos := 1, depth := -1,
         error := some ("stray \x27\x5d\x27") }) :=
  ⟨(depth_transition (bjReader ("[".toList)) rfl).2.1 (by decide),
   (depth_transition (bjReader ("]".toList)) rfl).1 (by decide)
     (Or.inr (by decide)) (by decide)⟩

/-- C1 counterexample: scanning a single `\x7d` at depth 0 records the
stray-close error identifying the bracket and returns an Error Value whose
depth field is the pre-decrement depth 0, but the reader's depth is left at
`-1`, not `0` as the claim states. -/
theorem depth_transition_counterexample :
    (bjRead (bjReader ("\x7d".toList))).2.error =
      some ("stray \x27\x7d\x27") ∧
    (bjRead (bjReader ("\x7d".toList))).1.depth = 0 ∧
    (bjRead (bjReader ("\x7d".toList))).2.depth = -1 ∧
    ¬ (bjRead (bjReader ("\x7d".toList))).2.depth = 0 := by
  decide

deriving instance DecidableEq for Except

theorem parseFloat_one : parseFloat ("1".toList) = some 1 := by
  have h : parseFloat ("1".toList) =
      some ((1 : ℚ) * (((1 : Nat) : ℚ) + ((0 : Nat) : ℚ) / (10 : ℚ) ^ (0 : Nat)) *
        (10 : ℚ) ^ (0 : Nat)) := rfl
  rw [h]
  norm_num

theorem parseFloat_two : parseFloat ("2".toList) = some 2 := by
  have h : parseFloat ("2".toList) =
      some ((1 : ℚ) * (((2 : Nat) : ℚ) + ((0 : Nat) : ℚ) / (10 : ℚ) ^ (0 : Nat)) *
        (10 : ℚ) ^ (0 : Nat)) := rfl
  rw [h]
  norm_num

theorem parseFloat_three : parseFloat ("3".toList) = some 3 := by
  have h : parseFloat ("3".toList) =
      some ((1 : ℚ) * (((3 : Nat) : ℚ) + ((0 : Nat) : ℚ) / (10 : ℚ) ^ (0 : Nat)) *
        (10 : ℚ) ^ (0 : Nat)) := rfl
  rw [h]
  norm_num

/-- Reader over the input of the first concrete scenario, `[1, 2, 3]`. -/
def c5reader : BjReader := bjReader ("[1, 2, 3]".toList)

/-- Root token scan of the `[1, 2, 3]` scenario. -/
def c5root : BjValue × BjReader := bjRead c5reader

/-- First array-iterator step of the `[1, 2, 3]` scenario. -/
def c5step1 : BjIteratorResult × BjReader := bjIterArray c5root.2 c5root.1

/-- Second array-iterator step of the `[1, 2, 3]` scenario. -/
def c5step2 : BjIteratorResult × BjReader := bjIterArray c5step1.2 c5root.1

/-- Third array-iterator step of the `[1, 2, 3]` scenario. -/
def c5step3 : BjIteratorResult × BjReader := bjIterArray c5step2.2 c5root.1

/-- Fourth array-iterator step of the `[1, 2, 3]` scenario. -/
def c5step4 : BjIteratorResult × BjReader := bjIterArray c5step3.2 c5root.1

/-- C5: for the input `[1, 2, 3]`, after scanning the root Array token three
successive array-iterator steps yield Number values projecting to 1, 2 and 3
in source order, and the fourth step reports done with no error set. -/
theorem array_scalar_iteration :
    c5root.1.type = BjType.ARRAY ∧
    c5step1.1.done = false ∧ c5step2.1.done = false ∧ c5step3.1.done = false ∧
    (c5step1.1.value.map fun v => bjGetNumber c5step1.2 v) =
      some (Except.ok (some 1)) ∧
    (c5step2.1.value.map fun v => bjGetNumber c5step2.2 v) =
      some (Except.ok (some 2)) ∧
    (c5step3.1.value.map fun v => bjGetNumber c5step3.2 v) =
      some (Except.ok (some 3)) ∧
    c5step4.1.done = true ∧ c5step4.2.error = none := by
  have h1 : c5step1.1.value = some ⟨BjType.NUMBER, 1, 2, 1⟩ := by decide
  have h2 : c5step2.1.value = some ⟨BjType.NUMBER, 4, 5, 1⟩ := by decide
  have h3 : c5step3.1.value = some ⟨BjType.NUMBER, 7, 8, 1⟩ := by decide
  have g1 : bjGetNumber c5step1.2 ⟨BjType.NUMBER, 1, 2, 1⟩ =
      Except.ok (some 1) := by
    unfold bjGetNumber
    rw [if_neg (by decide)]
    have hs : jsSubstring c5step1.2.data 1 2 = "1".toList := by decide
    rw [hs, parseFloat_one]
  have g2 : bjGetNumber c5step2.2 ⟨BjType.NUMBER, 4, 5, 1⟩ =
      Except.ok (some 2) := by
    unfold bjGetNumber
    rw [if_neg (by decide)]
    have hs : jsSubstring c5step2.2.data 4 5 = "2".toList := by decide
    rw [hs, parseFloat_two]
  have g3 : bjGetNumber c5step3.2 ⟨BjType.NUMBER, 7, 8, 1⟩ =
      Except.ok (some 3) := by
    unfold bjGetNumber
    rw [if_neg (by decide)]
    have hs : jsSubstring c5step3.2.data 7 8 = "3".toList := by decide
    rw [hs, parseFloat_three]
  refine ⟨by decide, by decide, by decide, by decide, ?_, ?_, ?_, by decide,
    by decide⟩
  · rw [h1, Option.map_some', g1]
  · rw [h2, Option.map_some', g2]
  · rw [h3, Option.map_some', g3]

/-- Reader over the abandoned-nested-container input `{"a": {"b": 1}}`. -/
def c4reader : BjReader := bjReader ("\x7b\"a\": \x7b\"b\": 1\x7d\x7d".toList)

/-- Root token scan of the `{"a": {"b": 1}}` scenario. -/
def c4root : BjValue × BjReader := bjRead c4reader

/-- First object-iterator step of the `{"a": {"b": 1}}` scenario, yielding
the pair for key `a`; its nested object value is then abandoned. -/
def c4step1 : BjObjectIteratorResult × BjReader := bjIterObject c4root.2 c4root.1

/-- Second object-iterator step of the `{"a": {"b": 1}}` scenario, taken
without having consumed the nested object. -/
def c4step2 : BjObjectIteratorResult × BjReader := bjIterObject c4step1.2 c4root.1

/-- Reader over the sibling variant `{"a": {"b": 1}, "c": 2}`. -/
def c4sibReader : BjReader :=
  bjReader ("\x7b\"a\": \x7b\"b\": 1\x7d, \"c\": 2\x7d".toList)

/-- Root token scan of the sibling variant. -/
def c4sibRoot : BjValue × BjReader := bjRead c4sibReader

/-- First object-iterator step of the sibling variant. -/
def c4sibStep1 : BjObjectIteratorResult × BjReader :=
  bjIterObject c4sibRoot.2 c4sibRoot.1

/-- Second object-iterator step of the sibling variant, taken without having
consumed the nested object received in the first step. -/
def c4sibStep2 : BjObjectIteratorResult × BjReader :=
  bjIterObject c4sibStep1.2 c4sibRoot.1

/-- Third object-iterator step of the sibling variant. -/
def c4sibStep3 : BjObjectIteratorResult × BjReader :=
  bjIterObject c4sibStep2.2 c4sibRoot.1

/-- C4: the discard helper always leaves the reader at the target depth or
in an error state; consequently a nested container received from an iterator
and abandoned unconsumed is skipped by the enclosing iterator's next step:
for `{"a": {"b": 1}}` the outer iterator then reports exhausted with no
error, and for `{"a": {"b": 1}, "c": 2}` it yields exactly the remaining
sibling pair `("c", 2)` before exhausting without error. -/
theorem abandon_nested_resumes :
    (∀ (r : BjReader) (d : Int),
      (bjDiscardUntil r d).depth = d ∨
      (bjDiscardUntil r d).error.isSome = true) ∧
    (c4root.1.type = BjType.OBJECT ∧
     c4step1.1.done = false ∧
     (c4step1.1.key.map fun k => bjGetString c4step1.2 k) =
       some (Except.ok ("a".toList)) ∧
     (c4step1.1.value.map fun v => v.type) = some BjType.OBJECT ∧
     c4step2.1.done = true ∧ c4step2.2.error = none) ∧
    (c4sibStep1.1.done = false ∧
     (c4sibStep1.1.value.map fun v => v.type) = some BjType.OBJECT ∧
     c4sibStep2.1.done = false ∧
     (c4sibStep2.1.key.map fun k => bjGetString c4sibStep2.2 k) =
       some (Except.ok ("c".toList)) ∧
     (c4sibStep2.1.value.map fun v => bjGetNumber c4sibStep2.2 v) =
       some (Except.ok (some 2)) ∧
     c4sibStep3.1.done = true ∧ c4sibStep3.2.error = none) := by
  have h1 : c4sibStep2.1.value = some ⟨BjType.NUMBER, 21, 22, 1⟩ := by decide
  have g1 : bjGetNumber c4sibStep2.2 ⟨BjType.NUMBER, 21, 22, 1⟩ =
      Except.ok (some 2) := by
    unfold bjGetNumber
    rw [if_neg (by decide)]
    have hs : jsSubstring c4sibStep2.2.data 21 22 = "2".toList := by decide
    rw [hs, parseFloat_two]
  refine ⟨fun r d => bjDiscardUntil_terminal r d,
    ⟨by decide, by decide, by decide, by decide, by decide, by decide⟩,
    ⟨by decide, by decide, by decide, by decide, ?_, by decide, by decide⟩⟩
  rw [h1, Option.map_some', g1]

/-- C8: each accessor checks only the value's kind: a mismatched kind fails
with the type-mismatch error, a matching kind always succeeds, and the
result is independent of the reader's parse-time error state. -/
theorem accessor_kind_check (r : BjReader) (v : BjValue) (e : Option String) :
    (v.type ≠ BjType.STRING →
      bjGetString r v = Except.error ("Value is not a string")) ∧
    (v.type = BjType.STRING →
      bjGetString r v = Except.ok (jsSubstring r.data v.start v.endPos)) ∧
    bjGetString { r with error := e } v = bjGetString r v ∧
    (v.type ≠ BjType.NUMBER →
      bjGetNumber r v = Except.error ("Value is not a number")) ∧
    (v.type = BjType.NUMBER →
      bjGetNumber r v =
        Except.ok (parseFloat (jsSubstring r.data v.start v.endPos))) ∧
    bjGetNumber { r with error := e } v = bjGetNumber r v ∧
    (v.type ≠ BjType.BOOL →
      bjGetBool r v = Except.error ("Value is not a boolean")) ∧
    (v.type = BjType.BOOL →
      bjGetBool r v =
        Except.ok (jsSubstring r.data v.start v.endPos == "true".toList)) ∧
    bjGetBool { r with error := e } v = bjGetBool r v := by
  unfold bjGetString bjGetNumber bjGetBool
  exact ⟨fun h => by rw [if_pos h],
    fun h => by rw [if_neg (not_not_intro h)],
    rfl,
    fun h => by rw [if_pos h],
    fun h => by rw [if_neg (not_not_intro h)],
    rfl,
    fun h => by rw [if_pos h],
    fun h => by rw [if_neg (not_not_intro h)],
    rfl⟩

/-- Witness for C8 at concrete mismatching and matching values. -/
theorem accessor_kind_check_witness :
    bjGetString (bjReader ("1".toList)) ⟨BjType.NUMBER, 0, 1, 0⟩ =
      Except.error ("Value is not a string") ∧
    bjGetBool (bjReader ("true".toList)) ⟨BjType.BOOL, 0, 4, 0⟩ =
      Except.ok (jsSubstring ("true".toList) 0 4 == "true".toList) :=
  ⟨(accessor_kind_check (bjReader ("1".toList)) ⟨BjType.NUMBER, 0, 1, 0⟩
      none).1 (by decide),
   (accessor_kind_check (bjReader ("true".toList)) ⟨BjType.BOOL, 0, 4, 0⟩
      none).2.2.2.2.2.2.2.1 rfl⟩

theorem ws_not_digitStart (c : Char) (hw : isWsChar c = true) :
    isDigitStart c = false := by
  unfold isWsChar at hw
  simp only [Bool.or_eq_true, beq_iff_eq] at hw
  rcases hw with ((((h | h) | h) | h) | h) | h <;> subst h <;> decide

theorem ws_not_quote (c : Char) (hw : isWsChar c = true) : ¬ c = '\"' := by
  unfold isWsChar at hw
  simp only [Bool.or_eq_true, beq_iff_eq] at hw
  rcases hw with ((((h | h) | h) | h) | h) | h <;> subst h <;> decide

/-- C6: at a digit or minus sign the scanner emits a Number value whose span
starts there and covers exactly the maximal run of number-continuation
characters `[0-9eE.+-]`, with no stricter grammar enforced: the malformed
text `1.2.3` is accepted as one Number span, and a span such as `-` projects
to a defined `NaN` result rather than an accessor failure. -/
theorem number_maximal_run (r : BjReader) (he : r.error = none)
    (hc : r.cur < r.endPos)
    (hd : isDigitStart (r.data.getD r.cur '\x00') = true) :
    ((bjRead r).1.type = BjType.NUMBER ∧
     (bjRead r).1.start = r.cur ∧
     (bjRead r).1.endPos = r.cur + numRun r.data r.endPos r.cur ∧
     (bjRead r).2.cur = r.cur + numRun r.data r.endPos r.cur ∧
     1 ≤ numRun r.data r.endPos r.cur ∧
     numRun r.data r.endPos r.cur ≤ r.endPos - r.cur ∧
     (∀ k, k < numRun r.data r.endPos r.cur →
       isNumberCont (r.data.getD (r.cur + k) '\x00') = true) ∧
     (r.cur + numRun r.data r.endPos r.cur < r.endPos →
      r.cur + numRun r.data r.endPos r.cur < r.data.length →
       isNumberCont
         (r.data.getD (r.cur + numRun r.data r.endPos r.cur) '\x00') =
           false)) ∧
    bjRead (bjReader ("1.2.3".toList)) =
      ({ type := BjType.NUMBER, start := 0, endPos := 5, depth := 0 },
       { data := "1.2.3".toList, cur := 5, endPos := 5, depth := 0,
         error := none }) := by
  have hw : isWsChar (r.data.getD r.cur '\x00') = false := by
    cases hb : isWsChar (r.data.getD r.cur '\x00') with
    | false => rfl
    | true =>
      rw [ws_not_digitStart _ hb] at hd
      exact absurd hd (by simp)
  rw [bjRead_not_ws r he hc hw]
  dsimp only [bjDispatch]
  rw [if_pos hd]
  refine ⟨⟨rfl, rfl, rfl, rfl,
    numRun_pos r.data r.endPos r.cur hc (isDigitStart_isNumberCont _ hd),
    numRun_le r.data r.endPos r.cur,
    fun k hk => numRun_all r.data r.endPos r.cur k hk,
    fun hlt hlen => numRun_stop r.data r.endPos r.cur hlt hlen⟩, by decide⟩

/-- Witness for C6 at the concrete inputs `1.2.3` and `-`. -/
theorem number_maximal_run_witness :
    (bjRead (bjReader ("1.2.3".toList))).1.type = BjType.NUMBER ∧
    (bjRead (bjReader ("-".toList))).1.type = BjType.NUMBER ∧
    bjGetNumber (bjRead (bjReader ("-".toList))).2
      (bjRead (bjReader ("-".toList))).1 = Except.ok none :=
  ⟨(number_maximal_run (bjReader ("1.2.3".toList)) rfl (by decide)
      (by decide)).1.1,
   by decide, by decide⟩

/-- C7: at an opening quote the scanner emits a String value whose span
starts just after the opening quote and ends just before the closing quote
located by the skip-one-after-a-backslash discipline of `findClose`, with
the raw backslash sequences preserved verbatim by the accessor; if the
region is exhausted before an unescaped closing quote, the error
`unclosed string` is recorded instead. -/
theorem string_scan (r : BjReader) (he : r.error = none)
    (hc : r.cur < r.endPos)
    (hq : r.data.getD r.cur '\x00' = '\"') :
    (∀ j, findClose (window r.data r.endPos (r.cur + 1)) = some j →
      bjRead r =
        ({ type := BjType.STRING, start := r.cur + 1, endPos := r.cur + 1 + j,
           depth := r.depth },
         { r with cur := r.cur + 1 + j + 1 }) ∧
      r.data.getD (r.cur + 1 + j) '\x00' = '\"' ∧
      bjGetString (bjRead r).2 (bjRead r).1 =
        Except.ok (jsSubstring r.data (r.cur + 1) (r.cur + 1 + j))) ∧
    (findClose (window r.data r.endPos (r.cur + 1)) = none →
      bjRead r =
        ({ type := BjType.ERROR, start := r.cur, endPos := r.endPos,
           depth := r.depth },
         { r with cur := r.endPos, error := some ("unclosed string") })) := by
  have hw : isWsChar (r.data.getD r.cur '\x00') = false := by
    cases hb : isWsChar (r.data.getD r.cur '\x00') with
    | false => rfl
    | true => exact absurd hq (ws_not_quote _ hb)
  have hread := bjRead_not_ws r he hc hw
  have hnd : ¬ isDigitStart (r.data.getD r.cur '\x00') = true := by
    rw [hq]
    decide
  constructor
  · intro j hj
    have hspec := findClose_spec _ _ hj
    have hwl := window_length r.data r.endPos (r.cur + 1)
    have hquote : r.data.getD (r.cur + 1 + j) '\x00' = '\"' := by
      have h2 := hspec.2
      rwa [window_getD r.data r.endPos (r.cur + 1) j '\x00' (by omega)] at h2
    have hbj : bjRead r =
        ({ type := BjType.STRING, start := r.cur + 1, endPos := r.cur + 1 + j,
           depth := r.depth },
         { r with cur := r.cur + 1 + j + 1 }) := by
      rw [hread]
      dsimp only [bjDispatch]
      rw [if_neg hnd, if_pos hq, hj]
    refine ⟨hbj, hquote, ?_⟩
    rw [hbj]
    unfold bjGetString
    rw [if_neg (not_not_intro rfl)]
  · intro hn
    rw [hread]
    dsimp only [bjDispatch]
    rw [if_neg hnd, if_pos hq, hn]

/-- Witness for C7 on the input `"a\"b"` (escaped quote inside) and the
unclosed input `"unclosed`. -/
theorem string_scan_witness :
    bjRead (bjReader ("\"a\\\"b\"".toList)) =
      ({ type := BjType.STRING, start := 1, endPos := 5, depth := 0 },
       { data := "\"a\\\"b\"".toList, cur := 6, endPos := 6, depth := 0,
         error := none }) ∧
    bjGetString (bjRead (bjReader ("\"a\\\"b\"".toList))).2
        (bjRead (bjReader ("\"a\\\"b\"".toList))).1 =
      Except.ok (jsSubstring ("\"a\\\"b\"".toList) 1 5) ∧
    jsSubstring ("\"a\\\"b\"".toList) 1 5 = "a\\\"b".toList ∧
    bjRead (bjReader ("\"unclosed".toList)) =
      ({ type := BjType.ERROR, start := 0, endPos := 9, depth := 0 },
       { data := "\"unclosed".toList, cur := 9, endPos := 9, depth := 0,
         error := some ("unclosed string") }) := by
  have h1 := (string_scan (bjReader ("\"a\\\"b\"".toList)) rfl (by decide)
    (by decide)).1 4 (by decide)
  have h2 := (string_scan (bjReader ("\"unclosed".toList)) rfl (by decide)
    (by decide)).2 (by decide)
  exact ⟨h1.1, h1.2.2, by decide, h2⟩

/-- C3 (amended): one object-iterator step reports done when the key-slot
scan yields End or Error, returning the post-scan reader unchanged (no new
error set by the iterator); when the key slot yields a token but the
value-slot scan yields End it sets the error `unexpected object end` and
reports done; when the value-slot scan yields Error it reports done without
yielding a pair (the case the original claim folds into "otherwise"); and
otherwise it yields the (key, value) pair, never checking that the key
token's kind is String. -/
theorem object_iter_cases (r : BjReader) (obj : BjValue) :
    ((bjRead (bjDiscardUntil r obj.depth)).1.type = BjType.ERROR ∨
      (bjRead (bjDiscardUntil r obj.depth)).1.type = BjType.END →
      bjIterObject r obj =
        ({ done := true, key := none, value := none },
         (bjRead (bjDiscardUntil r obj.depth)).2)) ∧
    (¬((bjRead (bjDiscardUntil r obj.depth)).1.type = BjType.ERROR ∨
       (bjRead (bjDiscardUntil r obj.depth)).1.type = BjType.END) →
      ((bjRead (bjRead (bjDiscardUntil r obj.depth)).2).1.type =
          BjType.END →
        bjIterObject r obj =
          ({ done := true, key := none, value := none },
           { (bjRead (bjRead (bjDiscardUntil r obj.depth)).2).2 with
               error := some ("unexpected object end") })) ∧
      ((bjRead (bjRead (bjDiscardUntil r obj.depth)).2).1.type =
          BjType.ERROR →
        bjIterObject r obj =
          ({ done := true, key := none, value := none },
           (bjRead (bjRead (bjDiscardUntil r obj.depth)).2).2)) ∧
      ((bjRead (bjRead (bjDiscardUntil r obj.depth)).2).1.type ≠
          BjType.END →
       (bjRead (bjRead (bjDiscardUntil r obj.depth)).2).1.type ≠
          BjType.ERROR →
        bjIterObject r obj =
          ({ done := false,
             key := some (bjRead (bjDiscardUntil r obj.depth)).1,
             value :=
               some (bjRead (bjRead (bjDiscardUntil r obj.depth)).2).1 },
           (bjRead (bjRead (bjDiscardUntil r obj.depth)).2).2))) := by
  unfold bjIterObject
  dsimp only
  constructor
  · intro h
    rw [if_pos h]
  · intro h
    rw [if_neg h]
    refine ⟨fun h2 => ?_, fun h2 => ?_, fun h2 h3 => ?_⟩
    · rw [if_pos h2]
    · have hne :
          ¬ (bjRead (bjRead (bjDiscardUntil r obj.depth)).2).1.type =
            BjType.END := by
        rw [h2]
        intro hx
        cases hx
      rw [if_neg hne, if_pos h2]
    · rw [if_neg h2, if_neg h3]

/-- Witness for C3: on the empty object the key slot scans End and the step
reports done; on `{1: 2}` a Number-kinded key is passed through unchecked. -/
theorem object_iter_cases_witness :
    bjIterObject (bjRead (bjReader ("\x7b\x7d".toList))).2
        (bjRead (bjReader ("\x7b\x7d".toList))).1 =
      ({ done := true, key := none, value := none },
       (bjRead (bjDiscardUntil (bjRead (bjReader ("\x7b\x7d".toList))).2
          (bjRead (bjReader ("\x7b\x7d".toList))).1.depth)).2) ∧
    ((bjIterObject (bjRead (bjReader ("\x7b1: 2\x7d".toList))).2
        (bjRead (bjReader ("\x7b1: 2\x7d".toList))).1).1.key.map
          fun k => k.type) = some BjType.NUMBER :=
  ⟨(object_iter_cases (bjRead (bjReader ("\x7b\x7d".toList))).2
      (bjRead (bjReader ("\x7b\x7d".toList))).1).1 (by decide),
   by decide⟩

/-- C3 counterexample: for the input `{"a":`, the key slot scans a String
token and the value slot scans an Error token (which is not End), yet the
iterator reports done and yields no pair, contradicting the claim's final
"otherwise it yields the (key, value) pair". -/
theorem object_iter_counterexample :
    (let r0 := bjReader ("\x7b\"a\":".toList)
     let a := bjRead r0
     let k := bjRead (bjDiscardUntil a.2 a.1.depth)
     let v := bjRead k.2
     k.1.type = BjType.STRING ∧
     v.1.type = BjType.ERROR ∧
     ¬ v.1.type = BjType.END ∧
     (bjIterObject a.2 a.1).1.done = true ∧
     (bjIterObject a.2 a.1).1.key = none ∧
     (bjIterObject a.2 a.1).1.value = none) := by
  decide
